import Mathlib

/-!
Verification of the retrying HTTP client `DojotClientHttp`
(src/lib/webUtils/DojotClientHttp.js).

The transport (axios) is modelled as a function from the 0-based attempt
counter to the outcome of that send: either a success carrying an opaque
response, or a failure optionally carrying an HTTP status code (`none`
models a failure with no response, e.g. a network error).

The retry loop (`doRequest` → `retry` → `setTimeout` → `doRequest` …) is
modelled by a single-step function `doRequestStep` plus a fuelled driver
`runTrace` that records, besides the settled result, the list of timer
waits (the `setTimeout` durations) in order.
-/

namespace DojotClientHttp

/-- Outcome of one transport send: success with a response, or failure with
an optional HTTP status (`none` = no response, e.g. network error). -/
inductive AttemptOutcome (ρ : Type) where
  | success (response : ρ)
  | failure (status : Option Nat)
  deriving Repr, DecidableEq

/-- The per-request retry state threaded through `doRequest`/`retry`:
`{attempts, retryDelay, maxNumberAttempts}`. `maxNumberAttempts` is an `Int`
because JavaScript numbers may be negative and the code only compares it
with `> 0` and `>=`. -/
structure RetryState where
  attempts : Nat
  retryDelay : Nat
  maxNumberAttempts : Int
  deriving Repr, DecidableEq

/-- How one request settles: `resolve(response)` or `reject(new Error(msg))`.
The rejection carries only the message string, exactly as the code builds
`new Error('Number of attempts exceeded.')` without attaching the transport
failure. -/
inductive RequestResult (ρ : Type) where
  | resolved (response : ρ)
  | rejected (message : String)
  deriving Repr, DecidableEq

/-- Result of one `doRequest` send together with the retry decision on its
failure: either the promise settles, or a retry is scheduled after `wait`
milliseconds (`setTimeout(..., newRetryDelay)`) with the next state. -/
inductive StepResult (ρ : Type) where
  | settled (result : RequestResult ρ)
  | retryAfter (wait : Nat) (next : RetryState)
  deriving Repr, DecidableEq

/-- The cap check guarding the rejection branch of `retry`:
`maxNumberAttempts > 0 && attempts >= maxNumberAttempts`. -/
def capReached (st : RetryState) : Prop :=
  0 < st.maxNumberAttempts ∧ st.maxNumberAttempts ≤ (st.attempts : Int)

instance (st : RetryState) : Decidable (capReached st) := by
  unfold capReached; infer_instance

/-- The next delay computed by `retry`:
`(requestError.response && requestError.response.status === 429) ? retryDelay * 2 : retryDelay`. -/
def newRetryDelayOf (status : Option Nat) (retryDelay : Nat) : Nat :=
  if status = some 429 then retryDelay * 2 else retryDelay

/-- Embedding of `retry(requestError, …, {attempts, retryDelay, maxNumberAttempts})`:
reject when the cap is reached, otherwise schedule `doRequest` after
`newRetryDelay` with `{attempts: attempts + 1, retryDelay: newRetryDelay,
maxNumberAttempts}`. `status` is the failed attempt's response status. -/
def retryStep (ρ : Type) (status : Option Nat) (st : RetryState) : StepResult ρ :=
  if capReached st then
    .settled (.rejected "Number of attempts exceeded.")
  else
    .retryAfter (newRetryDelayOf status st.retryDelay)
      { attempts := st.attempts + 1
        retryDelay := newRetryDelayOf status st.retryDelay
        maxNumberAttempts := st.maxNumberAttempts }

/-- Embedding of `doRequest(options, resolve, reject, configRetryRequest)`: send
via the transport; on success resolve with the response, on failure invoke `retry`. -/
def doRequestStep {ρ : Type} (transport : Nat → AttemptOutcome ρ)
    (st : RetryState) : StepResult ρ :=
  match transport st.attempts with
  | .success response => .settled (.resolved response)
  | .failure status => retryStep ρ status st

/-- The initial retry state built by `request(options, retryDelay,
maxNumberAttempts)`. `retryDelay || defaultRetryDelay` treats an explicit 0
as falsy (defaulted); `maxNumberAttempts || maxNumberAttempts === 0
? maxNumberAttempts : defaultMaxNumberAttempts` honours every supplied
number, including 0 and negatives, and defaults only when omitted. -/
def requestInit (defaultRetryDelay : Nat) (defaultMaxNumberAttempts : Int)
    (retryDelay : Option Nat) (maxNumberAttempts : Option Int) : RetryState :=
  { attempts := 0
    retryDelay :=
      match retryDelay with
      | none => defaultRetryDelay
      | some d => if d = 0 then defaultRetryDelay else d
    maxNumberAttempts :=
      match maxNumberAttempts with
      | none => defaultMaxNumberAttempts
      | some m => m }

/-- Fuelled driver of the retry loop: runs `doRequestStep` repeatedly,
collecting the timer waits in order, until the promise settles or the fuel
runs out (`none` = still looping after `fuel` sends). -/
def runTrace {ρ : Type} (transport : Nat → AttemptOutcome ρ)
    (st : RetryState) : Nat → Option (RequestResult ρ × List Nat)
  | 0 => none
  | fuel + 1 =>
    match doRequestStep transport st with
    | .settled result => some (result, [])
    | .retryAfter wait next =>
      (runTrace transport next fuel).map (fun p => (p.1, wait :: p.2))

/-- Number of transport sends executed in a settled run: one send per loop
iteration, i.e. one more than the number of timer waits. -/
def sendCount {ρ : Type} (transport : Nat → AttemptOutcome ρ)
    (st : RetryState) (fuel : Nat) : Option Nat :=
  (runTrace transport st fuel).map (fun p => p.2.length + 1)

/-- A transport that fails every attempt with HTTP 500. -/
def alwaysFail500 : Nat → AttemptOutcome Nat :=
  fun _ => .failure (some 500)

/-- A transport that fails attempt 0 with HTTP 429 and succeeds from
attempt 1 on with response `42`. -/
def fail429ThenOk : Nat → AttemptOutcome Nat :=
  fun k => if k = 0 then .failure (some 429) else .success 42

/-! ### Unfolding lemmas for the step and the driver -/

lemma doRequestStep_success {ρ : Type} {transport : Nat → AttemptOutcome ρ}
    {st : RetryState} {r : ρ} (h : transport st.attempts = .success r) :
    doRequestStep transport st = .settled (.resolved r) := by
  unfold doRequestStep; rw [h]

lemma doRequestStep_failure {ρ : Type} {transport : Nat → AttemptOutcome ρ}
    {st : RetryState} {s : Option Nat} (h : transport st.attempts = .failure s) :
    doRequestStep transport st = retryStep ρ s st := by
  unfold doRequestStep; rw [h]

lemma retryStep_capped {ρ : Type} {st : RetryState} (h : capReached st) (s : Option Nat) :
    retryStep ρ s st = .settled (.rejected "Number of attempts exceeded.") := by
  unfold retryStep; rw [if_pos h]

lemma retryStep_not_capped {ρ : Type} {st : RetryState} (h : ¬ capReached st)
    (s : Option Nat) :
    retryStep ρ s st =
      .retryAfter (newRetryDelayOf s st.retryDelay)
        ⟨st.attempts + 1, newRetryDelayOf s st.retryDelay, st.maxNumberAttempts⟩ := by
  unfold retryStep; rw [if_neg h]

lemma runTrace_settled {ρ : Type} {transport : Nat → AttemptOutcome ρ}
    {st : RetryState} {result : RequestResult ρ}
    (h : doRequestStep transport st = .settled result) (fuel : Nat) :
    runTrace transport st (fuel + 1) = some (result, []) := by
  rw [runTrace, h]

lemma runTrace_retry {ρ : Type} {transport : Nat → AttemptOutcome ρ}
    {st : RetryState} {w : Nat} {next : RetryState}
    (h : doRequestStep transport st = .retryAfter w next) (fuel : Nat) :
    runTrace transport st (fuel + 1) =
      (runTrace transport next fuel).map (fun p => (p.1, w :: p.2)) := by
  rw [runTrace, h]

lemma capReached_nonpos (st : RetryState) (h : st.maxNumberAttempts ≤ 0) :
    ¬ capReached st := by
  unfold capReached; omega

lemma capReached_attempts_lt (st : RetryState)
    (h : (st.attempts : Int) < st.maxNumberAttempts) : ¬ capReached st := by
  unfold capReached; omega

/-! ### Runs in which every send fails (attempt exhaustion) -/

/-- Starting at attempt counter `a` with cap `a + n` (`0 < a + n`), a transport
failing every attempt drives the loop to the exact rejection after `n` more
waits, i.e. `n + 1` more sends. -/
lemma run_all_fail {ρ : Type} (transport : Nat → AttemptOutcome ρ)
    (hfail : ∀ k, ∃ s, transport k = .failure s) :
    ∀ (n a d : Nat), 0 < a + n →
      ∃ ws : List Nat,
        runTrace transport ⟨a, d, ((a + n : Nat) : Int)⟩ (n + 1) =
          some (.rejected "Number of attempts exceeded.", ws) ∧ ws.length = n := by
  intro n
  induction n with
  | zero =>
    intro a d ha
    obtain ⟨s, hs⟩ := hfail a
    have hcap : capReached ⟨a, d, ((a + 0 : Nat) : Int)⟩ := by
      unfold capReached; dsimp only; omega
    refine ⟨[], ?_, rfl⟩
    exact runTrace_settled ((doRequestStep_failure hs).trans (retryStep_capped hcap s)) 0
  | succ n ih =>
    intro a d _
    obtain ⟨s, hs⟩ := hfail a
    have hcap : ¬ capReached ⟨a, d, ((a + (n + 1) : Nat) : Int)⟩ := by
      apply capReached_attempts_lt; dsimp only; omega
    have hstep := (doRequestStep_failure hs).trans (retryStep_not_capped hcap s)
    obtain ⟨ws, hrun, hlen⟩ :=
      ih (a + 1) (newRetryDelayOf s d) (by omega)
    have hmax : ((a + 1) + n : Nat) = (a + (n + 1) : Nat) := by omega
    rw [hmax] at hrun
    refine ⟨newRetryDelayOf s d :: ws, ?_, by simp [hlen]⟩
    rw [runTrace_retry hstep, hrun]
    rfl

/-! ### Runs with a non-positive cap (unbounded retries) -/

/-- With a non-positive `maxNumberAttempts` the rejection branch of `retry`
is unreachable: no amount of fuel makes the run settle as a rejection. -/
lemma no_reject_of_nonpos {ρ : Type} (transport : Nat → AttemptOutcome ρ)
    (m : Int) (hm : m ≤ 0) :
    ∀ (fuel a d : Nat) (msg : String) (ws : List Nat),
      runTrace transport ⟨a, d, m⟩ fuel ≠ some (.rejected msg, ws) := by
  intro fuel
  induction fuel with
  | zero => intro a d msg ws h; exact Option.noConfusion h
  | succ fuel ih =>
    intro a d msg ws h
    rcases hout : transport a with r | s
    · rw [runTrace_settled (doRequestStep_success hout) fuel] at h
      simp at h
    · have hstep :=
        (doRequestStep_failure hout).trans
          (retryStep_not_capped (capReached_nonpos ⟨a, d, m⟩ hm) s)
      rw [runTrace_retry hstep fuel] at h
      rcases hnext : runTrace transport ⟨a + 1, newRetryDelayOf s d, m⟩ fuel with _ | p
      · rw [hnext] at h; exact Option.noConfusion h
      · obtain ⟨p1, p2⟩ := p
        rw [hnext] at h
        simp at h
        exact ih (a + 1) (newRetryDelayOf s d) msg p2 (by rw [hnext, h.1])

/-- The cap value is only ever compared with `maxNumberAttempts > 0 &&
attempts >= maxNumberAttempts`, so every non-positive cap behaves exactly
like an explicit `0`. -/
lemma runTrace_nonpos_eq_zero {ρ : Type} (transport : Nat → AttemptOutcome ρ)
    (m : Int) (hm : m ≤ 0) :
    ∀ (fuel a d : Nat),
      runTrace transport ⟨a, d, m⟩ fuel = runTrace transport ⟨a, d, 0⟩ fuel := by
  intro fuel
  induction fuel with
  | zero => intro a d; rfl
  | succ fuel ih =>
    intro a d
    rcases hout : transport a with r | s
    · rw [runTrace_settled (doRequestStep_success hout) fuel,
        runTrace_settled (doRequestStep_success hout) fuel]
    · have hstep :=
        (doRequestStep_failure hout).trans
          (retryStep_not_capped (capReached_nonpos ⟨a, d, m⟩ hm) s)
      have hstep0 :=
        (doRequestStep_failure hout).trans
          (retryStep_not_capped (capReached_nonpos ⟨a, d, 0⟩ (le_refl (0 : Int))) s)
      rw [runTrace_retry hstep fuel, runTrace_retry hstep0 fuel,
        ih (a + 1) (newRetryDelayOf s d)]

/-- If the transport fails on attempts `a, …, a + n - 1` and succeeds on
attempt `a + n`, a run with non-positive cap resolves with that response
after `n` waits. -/
lemma run_fail_then_ok {ρ : Type} (transport : Nat → AttemptOutcome ρ)
    (r : ρ) (m : Int) (hm : m ≤ 0) :
    ∀ (n a d : Nat),
      (∀ k, a ≤ k → k < a + n → ∃ s, transport k = .failure s) →
      transport (a + n) = .success r →
      ∃ ws : List Nat,
        runTrace transport ⟨a, d, m⟩ (n + 1) = some (.resolved r, ws) ∧
          ws.length = n := by
  intro n
  induction n with
  | zero =>
    intro a d _ hok
    exact ⟨[], runTrace_settled (doRequestStep_success hok) 0, rfl⟩
  | succ n ih =>
    intro a d hfails hok
    obtain ⟨s, hs⟩ := hfails a (le_refl a) (by omega)
    have hstep :=
      (doRequestStep_failure hs).trans
        (retryStep_not_capped (capReached_nonpos ⟨a, d, m⟩ hm) s)
    obtain ⟨ws, hrun, hlen⟩ :=
      ih (a + 1) (newRetryDelayOf s d)
        (fun k hk1 hk2 => hfails k (by omega) (by omega))
        (by rw [show (a + 1) + n = a + (n + 1) by omega]; exact hok)
    refine ⟨newRetryDelayOf s d :: ws, ?_, by simp [hlen]⟩
    rw [runTrace_retry hstep, hrun]
    rfl

/-! ### Consecutive 429 failures (geometric delay escalation) -/

/-- When attempts `a, …, a + n - 1` all fail with status 429 and attempt
`a + n` succeeds, and the cap never fires on the way, the scheduled waits
are exactly `d·2¹, d·2², …, d·2ⁿ` in order. -/
lemma run_429_escalation {ρ : Type} (transport : Nat → AttemptOutcome ρ)
    (r : ρ) (m : Int) :
    ∀ (n a d : Nat),
      (∀ k, a ≤ k → k < a + n → transport k = .failure (some 429)) →
      transport (a + n) = .success r →
      (m ≤ 0 ∨ ((a + n : Nat) : Int) ≤ m) →
      runTrace transport ⟨a, d, m⟩ (n + 1) =
        some (.resolved r, (List.range n).map (fun k => d * 2 ^ (k + 1))) := by
  intro n
  induction n with
  | zero =>
    intro a d _ hok _
    exact runTrace_settled (doRequestStep_success hok) 0
  | succ n ih =>
    intro a d hfails hok hcapSafe
    have hs : transport a = .failure (some 429) := hfails a (le_refl a) (by omega)
    have hcap : ¬ capReached ⟨a, d, m⟩ := by
      rcases hcapSafe with h | h
      · exact capReached_nonpos ⟨a, d, m⟩ h
      · apply capReached_attempts_lt; dsimp only; omega
    have hstep := (doRequestStep_failure hs).trans (retryStep_not_capped hcap (some 429))
    have hrec :=
      ih (a + 1) (newRetryDelayOf (some 429) d)
        (fun k hk1 hk2 => hfails k (by omega) (by omega))
        (by rw [show (a + 1) + n = a + (n + 1) by omega]; exact hok)
        (by rcases hcapSafe with h | h
            · exact Or.inl h
            · exact Or.inr (by rw [show (a + 1) + n = a + (n + 1) by omega]; exact h))
    have hdelay : newRetryDelayOf (some 429) d = d * 2 := by
      unfold newRetryDelayOf; simp
    have hfun : ((fun k => d * 2 ^ (k + 1)) ∘ Nat.succ) =
        fun k => (d * 2) * 2 ^ (k + 1) := by
      funext k
      simp only [Function.comp, pow_succ]
      ring
    rw [runTrace_retry hstep, hrec, hdelay]
    dsimp only [Option.map]
    rw [List.range_succ_eq_map, List.map_cons, List.map_map, hfun]
    norm_num

/-! ### Further concrete transports used as witnesses -/

/-- A transport that always succeeds immediately with response `7`. -/
def alwaysOk : Nat → AttemptOutcome Nat :=
  fun _ => .success 7

/-- A transport that fails attempt 0 with HTTP 500 and succeeds from
attempt 1 on with response `42`. -/
def fail500ThenOk : Nat → AttemptOutcome Nat :=
  fun k => if k = 0 then .failure (some 500) else .success 42

/-! ### Claims -/

/-- C1 (counterexample): with `defaultRetryDelay = 100`,
`defaultMaxNumberAttempts = 2` and a transport failing every attempt with
status 500, the promise has not settled after 2 sends (the claim says it
rejects then), and it settles as the rejection only after 3 sends. -/
theorem C1_counterexample :
    runTrace alwaysFail500 (requestInit 100 2 none none) 2 = none ∧
    sendCount alwaysFail500 (requestInit 100 2 none none) 10 = some 3 ∧
    (3 : Nat) ≠ 2 :=
  ⟨rfl, rfl, by decide⟩

/-- C1 (amended): for every `maxNumberAttempts = m > 0`, a request whose
transport fails on every attempt settles as the rejection
"Number of attempts exceeded." after exactly `m + 1` total sends: attempts
`0 .. m` (0-based counter) are all executed — the cap check only blocks the
send that would be attempt `m + 1` — and `m` retry waits occur. -/
theorem C1_attempts_exhausted (ρ : Type) (transport : Nat → AttemptOutcome ρ)
    (m d : Nat) (hm : 0 < m)
    (hfail : ∀ k, ∃ s, transport k = .failure s) :
    ∃ ws : List Nat,
      runTrace transport ⟨0, d, (m : Int)⟩ (m + 1) =
        some (.rejected "Number of attempts exceeded.", ws) ∧
      ws.length = m ∧
      sendCount transport ⟨0, d, (m : Int)⟩ (m + 1) = some (m + 1) := by
  obtain ⟨ws, hrun, hlen⟩ := run_all_fail transport hfail m 0 d (by omega)
  rw [Nat.zero_add] at hrun
  refine ⟨ws, hrun, hlen, ?_⟩
  unfold sendCount
  rw [hrun]
  simp [hlen]

/-- Witness for C1: the amended statement instantiated at the always-500
transport with delay 100 and cap 2 (three sends, two waits). -/
theorem C1_witness :
    ∃ ws : List Nat,
      runTrace alwaysFail500 ⟨0, 100, ((2 : Nat) : Int)⟩ 3 =
        some (.rejected "Number of attempts exceeded.", ws) ∧
      ws.length = 2 ∧
      sendCount alwaysFail500 ⟨0, 100, ((2 : Nat) : Int)⟩ 3 = some 3 :=
  C1_attempts_exhausted Nat alwaysFail500 2 100 (by decide)
    (fun k => ⟨some 500, rfl⟩)

/-- C2 (counterexample): with `defaultRetryDelay = 100`,
`defaultMaxNumberAttempts = 2`, a 429 failure on attempt 0 and success on
attempt 1, the single timer wait before the second send is 200 ms, not the
100 ms the claim asserts (`setTimeout` is given the already-doubled delay). -/
theorem C2_counterexample :
    runTrace fail429ThenOk (requestInit 100 2 none none) 10 =
      some (.resolved 42, [200]) ∧
    (200 : Nat) ≠ 100 :=
  ⟨rfl, by decide⟩

/-- C2 (amended): with `defaultRetryDelay = 100`,
`defaultMaxNumberAttempts = 2`, if the transport fails attempt 0 with 429
and succeeds on attempt 1, the request resolves with the second attempt's
response and the wait before the second attempt is 200 ms — the doubling
triggered by the 429 applies to the very wait being scheduled. -/
theorem C2_resolve_after_429 (ρ : Type) (transport : Nat → AttemptOutcome ρ)
    (r : ρ) (h0 : transport 0 = .failure (some 429))
    (h1 : transport 1 = .success r) :
    runTrace transport (requestInit 100 2 none none) 2 =
      some (.resolved r, [200]) := by
  have hcap : ¬ capReached ⟨0, 100, (2 : Int)⟩ := by decide
  have hstep := (doRequestStep_failure h0).trans (retryStep_not_capped hcap (some 429))
  rw [show requestInit 100 2 none none = ⟨0, 100, (2 : Int)⟩ from rfl,
    runTrace_retry hstep 1, runTrace_settled (doRequestStep_success h1) 0]
  rfl

/-- Witness for C2: the amended statement at the concrete 429-then-success
transport. -/
theorem C2_witness :
    runTrace fail429ThenOk (requestInit 100 2 none none) 2 =
      some (.resolved 42, [200]) :=
  C2_resolve_after_429 Nat fail429ThenOk 42 rfl rfl

/-- C3: on any transport failure not blocked by the cap check, the delay
computed for the next retry is exactly double the current `retryDelay` when
the failure's status is exactly 429 and unchanged otherwise (also when there
is no response at all), and the retry timer waits exactly that newly
computed delay before re-sending with it as the new state delay. -/
theorem C3_delay_doubling (ρ : Type) (transport : Nat → AttemptOutcome ρ)
    (st : RetryState) (s : Option Nat)
    (hfail : transport st.attempts = .failure s) (hcap : ¬ capReached st) :
    doRequestStep transport st =
      .retryAfter (if s = some 429 then st.retryDelay * 2 else st.retryDelay)
        ⟨st.attempts + 1,
          if s = some 429 then st.retryDelay * 2 else st.retryDelay,
          st.maxNumberAttempts⟩ :=
  (doRequestStep_failure hfail).trans (retryStep_not_capped hcap s)

/-- Witness for C3: a 429 failure at delay 100 schedules the retry after
exactly 200 ms and re-sends with delay 200. -/
theorem C3_witness :
    doRequestStep fail429ThenOk ⟨0, 100, (3 : Int)⟩ =
      .retryAfter 200 ⟨1, 200, (3 : Int)⟩ :=
  C3_delay_doubling Nat fail429ThenOk ⟨0, 100, (3 : Int)⟩ (some 429) rfl (by decide)

/-- C4: passing `maxNumberAttempts = 0` explicitly to `request()` overrides
any instance default (it is not treated as falsy-and-defaulted) and yields
unbounded retries: the attempts-exceeded rejection is never produced at any
fuel, and a transport failing any finite number of times before succeeding
leads to resolution with the successful response. -/
theorem C4_explicit_zero_unbounded (dd : Nat) (dm : Int) (rd : Option Nat) :
    (requestInit dd dm rd (some 0)).maxNumberAttempts = 0 ∧
    (∀ (ρ : Type) (transport : Nat → AttemptOutcome ρ) (fuel : Nat)
        (msg : String) (ws : List Nat),
      runTrace transport (requestInit dd dm rd (some 0)) fuel ≠
        some (.rejected msg, ws)) ∧
    (∀ (ρ : Type) (transport : Nat → AttemptOutcome ρ) (r : ρ) (n : Nat),
      (∀ k, k < n → ∃ s, transport k = .failure s) →
      transport n = .success r →
      ∃ ws : List Nat,
        runTrace transport (requestInit dd dm rd (some 0)) (n + 1) =
          some (.resolved r, ws) ∧ ws.length = n) := by
  refine ⟨rfl, ?_, ?_⟩
  · intro ρ transport fuel msg ws
    exact no_reject_of_nonpos transport 0 (le_refl 0) fuel 0
      ((requestInit dd dm rd (some 0)).retryDelay) msg ws
  · intro ρ transport r n hfails hok
    obtain ⟨ws, hrun, hlen⟩ :=
      run_fail_then_ok transport r 0 (le_refl 0) n 0
        ((requestInit dd dm rd (some 0)).retryDelay)
        (fun k hk1 hk2 => hfails k (by omega))
        (by rw [Nat.zero_add]; exact hok)
    exact ⟨ws, hrun, hlen⟩

/-- Witness for C4: explicit 0 overrides default cap 3; a transport failing
once then succeeding resolves with the success. -/
theorem C4_witness :
    (requestInit 100 3 none (some 0)).maxNumberAttempts = 0 ∧
    (∃ ws : List Nat,
      runTrace fail429ThenOk (requestInit 100 3 none (some 0)) 2 =
        some (.resolved 42, ws) ∧ ws.length = 1) :=
  ⟨(C4_explicit_zero_unbounded 100 3 none).1,
   (C4_explicit_zero_unbounded 100 3 none).2.2 Nat fail429ThenOk 42 1
     (fun k hk => ⟨some 429, by
        have hk0 : k = 0 := by omega
        subst hk0; rfl⟩)
     rfl⟩

/-- C5: when the cap check fires, the promise rejects with an error whose
message is exactly "Number of attempts exceeded." whatever the underlying
failure's status was (the transport failure is discarded); a successful
attempt resolves with the transport's response unmodified. -/
theorem C5_fixed_rejection_and_plain_resolution (ρ : Type) :
    (∀ (st : RetryState) (s : Option Nat), capReached st →
      retryStep ρ s st = .settled (.rejected "Number of attempts exceeded.")) ∧
    (∀ (transport : Nat → AttemptOutcome ρ) (st : RetryState) (r : ρ),
      transport st.attempts = .success r →
      doRequestStep transport st = .settled (.resolved r)) :=
  ⟨fun _ s h => retryStep_capped h s,
   fun _ _ _ h => doRequestStep_success h⟩

/-- Witness for C5: the capped rejection at a concrete exhausted state and
the plain resolution at a concrete successful attempt. -/
theorem C5_witness :
    retryStep Nat (some 500) ⟨2, 100, (2 : Int)⟩ =
      .settled (.rejected "Number of attempts exceeded.") ∧
    doRequestStep fail429ThenOk ⟨1, 100, (2 : Int)⟩ =
      .settled (.resolved 42) :=
  ⟨(C5_fixed_rejection_and_plain_resolution Nat).1 ⟨2, 100, (2 : Int)⟩
      (some 500) (by decide),
   (C5_fixed_rejection_and_plain_resolution Nat).2 fail429ThenOk
      ⟨1, 100, (2 : Int)⟩ 42 rfl⟩

/-- C6: a request whose first send succeeds settles immediately with that
response: the step is `settled` (the retry decision is never consulted) and
the run has an empty wait trace (no timer is ever awaited). -/
theorem C6_first_attempt_success (ρ : Type) (transport : Nat → AttemptOutcome ρ)
    (r : ρ) (dd : Nat) (dm : Int) (rd : Option Nat) (md : Option Int)
    (fuel : Nat) (h0 : transport 0 = .success r) :
    doRequestStep transport (requestInit dd dm rd md) = .settled (.resolved r) ∧
    runTrace transport (requestInit dd dm rd md) (fuel + 1) =
      some (.resolved r, []) := by
  have hstep : doRequestStep transport (requestInit dd dm rd md) =
      .settled (.resolved r) := doRequestStep_success h0
  exact ⟨hstep, runTrace_settled hstep fuel⟩

/-- Witness for C6: the always-successful transport resolves at once with no
waits. -/
theorem C6_witness :
    doRequestStep alwaysOk (requestInit 5000 3 none none) =
      .settled (.resolved 7) ∧
    runTrace alwaysOk (requestInit 5000 3 none none) 1 =
      some (.resolved 7, []) :=
  C6_first_attempt_success Nat alwaysOk 7 5000 3 none none 0 rfl

/-- C7: a request whose transport fails exactly once with a non-429 failure
and then succeeds resolves with the second attempt's response, after exactly
one timer wait of exactly the configured delay `d` (whatever the cap is). -/
theorem C7_one_failure_then_success (ρ : Type) (transport : Nat → AttemptOutcome ρ)
    (s : Option Nat) (r : ρ) (d : Nat) (m : Int)
    (h0 : transport 0 = .failure s) (hs : s ≠ some 429)
    (h1 : transport 1 = .success r) :
    runTrace transport ⟨0, d, m⟩ 2 = some (.resolved r, [d]) := by
  have hcap : ¬ capReached ⟨0, d, m⟩ := by
    unfold capReached; dsimp only; omega
  have hstep := (doRequestStep_failure h0).trans (retryStep_not_capped hcap s)
  have hdelay : newRetryDelayOf s d = d := by
    unfold newRetryDelayOf; rw [if_neg hs]
  rw [runTrace_retry hstep 1]
  dsimp only
  rw [hdelay, runTrace_settled (doRequestStep_success h1) 0]
  rfl

/-- Witness for C7: one 500 failure then success resolves with the second
response after a single 100 ms wait. -/
theorem C7_witness :
    runTrace fail500ThenOk ⟨0, 100, (3 : Int)⟩ 2 = some (.resolved 42, [100]) :=
  C7_one_failure_then_success Nat fail500ThenOk (some 500) 42 100 3 rfl
    (by decide) rfl

/-- C8: invariants of one request's RetryState: the state built by
`request()` starts with `attempts = 0`; whenever a retry is scheduled the
attempt counter increases by exactly 1 and the delay is non-decreasing —
doubled when the failure carried status 429 and unchanged otherwise. -/
theorem C8_retry_state_invariant (ρ : Type) (transport : Nat → AttemptOutcome ρ)
    (st next : RetryState) (w : Nat) (s : Option Nat)
    (dd : Nat) (dm : Int) (rd : Option Nat) (md : Option Int)
    (hfail : transport st.attempts = .failure s)
    (hstep : doRequestStep transport st = .retryAfter w next) :
    (requestInit dd dm rd md).attempts = 0 ∧
    next.attempts = st.attempts + 1 ∧
    st.retryDelay ≤ next.retryDelay ∧
    (s = some 429 → next.retryDelay = st.retryDelay * 2) ∧
    (s ≠ some 429 → next.retryDelay = st.retryDelay) := by
  have hcap : ¬ capReached st := by
    intro hc
    rw [doRequestStep_failure hfail, retryStep_capped hc s] at hstep
    exact StepResult.noConfusion hstep
  rw [doRequestStep_failure hfail, retryStep_not_capped hcap s] at hstep
  injection hstep with hw hnext
  rw [← hnext]
  refine ⟨rfl, rfl, ?_, ?_, ?_⟩
  · dsimp only
    unfold newRetryDelayOf
    split
    · omega
    · exact le_refl _
  · intro h429
    dsimp only
    unfold newRetryDelayOf
    rw [if_pos h429]
  · intro h429
    dsimp only
    unfold newRetryDelayOf
    rw [if_neg h429]

/-- Witness for C8: the 429 step from `⟨0, 100, 3⟩` to `⟨1, 200, 3⟩`. -/
theorem C8_witness :
    (requestInit 100 3 none none).attempts = 0 ∧
    (⟨1, 200, (3 : Int)⟩ : RetryState).attempts =
      (⟨0, 100, (3 : Int)⟩ : RetryState).attempts + 1 ∧
    (⟨0, 100, (3 : Int)⟩ : RetryState).retryDelay ≤
      (⟨1, 200, (3 : Int)⟩ : RetryState).retryDelay ∧
    ((some 429 : Option Nat) = some 429 →
      (⟨1, 200, (3 : Int)⟩ : RetryState).retryDelay =
        (⟨0, 100, (3 : Int)⟩ : RetryState).retryDelay * 2) ∧
    ((some 429 : Option Nat) ≠ some 429 →
      (⟨1, 200, (3 : Int)⟩ : RetryState).retryDelay =
        (⟨0, 100, (3 : Int)⟩ : RetryState).retryDelay) :=
  C8_retry_state_invariant Nat fail429ThenOk ⟨0, 100, (3 : Int)⟩
    ⟨1, 200, (3 : Int)⟩ 200 (some 429) 100 3 none none rfl rfl

/-- C9: for any non-positive `maxNumberAttempts` (including every negative
value) the cap check `maxNumberAttempts > 0 && attempts >= maxNumberAttempts`
never fires, so the attempts-exceeded rejection is unreachable and the whole
run behaves identically to an explicit cap of 0. -/
theorem C9_negative_cap_like_zero (m : Int) (hm : m ≤ 0) (ρ : Type)
    (transport : Nat → AttemptOutcome ρ) (a d fuel : Nat) :
    (∀ (msg : String) (ws : List Nat),
      runTrace transport ⟨a, d, m⟩ fuel ≠ some (.rejected msg, ws)) ∧
    runTrace transport ⟨a, d, m⟩ fuel = runTrace transport ⟨a, d, 0⟩ fuel :=
  ⟨fun msg ws => no_reject_of_nonpos transport m hm fuel a d msg ws,
   runTrace_nonpos_eq_zero transport m hm fuel a d⟩

/-- Witness for C9: cap `-1` behaves exactly like cap 0 on the always-500
transport and never rejects. -/
theorem C9_witness :
    (∀ (msg : String) (ws : List Nat),
      runTrace alwaysFail500 ⟨0, 100, (-1 : Int)⟩ 5 ≠
        some (.rejected msg, ws)) ∧
    runTrace alwaysFail500 ⟨0, 100, (-1 : Int)⟩ 5 =
      runTrace alwaysFail500 ⟨0, 100, (0 : Int)⟩ 5 :=
  C9_negative_cap_like_zero (-1) (by decide) Nat alwaysFail500 0 100 5

/-- C10: after `n` consecutive failures that all carry status 429, starting
from initial delay `d`, the scheduled waits are `d·2¹, …, d·2ⁿ` in order, so
the wait before the next attempt is exactly `d * 2 ^ n`. -/
theorem C10_geometric_escalation (ρ : Type) (transport : Nat → AttemptOutcome ρ)
    (r : ρ) (n d : Nat) (m : Int)
    (hfails : ∀ k, k < n → transport k = .failure (some 429))
    (hok : transport n = .success r)
    (hcapSafe : m ≤ 0 ∨ (n : Int) ≤ m) :
    runTrace transport ⟨0, d, m⟩ (n + 1) =
      some (.resolved r, (List.range n).map (fun k => d * 2 ^ (k + 1))) ∧
    (0 < n →
      ((List.range n).map (fun k => d * 2 ^ (k + 1))).getLast? =
        some (d * 2 ^ n)) := by
  constructor
  · exact run_429_escalation transport r m n 0 d
      (fun k hk1 hk2 => hfails k (by omega))
      (by rw [Nat.zero_add]; exact hok)
      (by rw [Nat.zero_add]; exact hcapSafe)
  · intro hn
    obtain ⟨j, rfl⟩ : ∃ j, n = j + 1 := ⟨n - 1, by omega⟩
    rw [List.range_succ, List.map_append]
    simp

/-- Witness for C10: one 429 failure at delay 100 schedules the wait 200
before the successful second attempt. -/
theorem C10_witness :
    runTrace fail429ThenOk ⟨0, 100, (3 : Int)⟩ 2 =
      some (.resolved 42, (List.range 1).map (fun k => 100 * 2 ^ (k + 1))) ∧
    (0 < 1 →
      ((List.range 1).map (fun k => 100 * 2 ^ (k + 1))).getLast? =
        some (100 * 2 ^ 1)) :=
  C10_geometric_escalation Nat fail429ThenOk 42 1 100 3
    (fun k hk => by
      have hk0 : k = 0 := by omega
      subst hk0; rfl)
    rfl (Or.inr (by decide))

end DojotClientHttp
